import Mathlib

set_option maxHeartbeats 1000000

namespace CalibreBatch

/-! Shallow embedding of the catalog view controller of the Calibre batch
tool (`gui.py`, `book_manager.py`): pagination, the search/filter layer
with its result cache, cache invalidation, the bulk update worker, and the
batched metadata fetch. -/

/-! ## Pagination (`MainWindow.refresh_table`, gui.py lines 611-613) -/

/-- Number of book rows per table page (`MainWindow.PAGE_SIZE` in `gui.py`). -/
def PAGE_SIZE : Nat := 50

/-- Model of `self.total_pages = (len(self.filtered_ids) + self.PAGE_SIZE - 1) // self.PAGE_SIZE`. -/
def total_pages (filtered : List Nat) : Nat :=
  (filtered.length + PAGE_SIZE - 1) / PAGE_SIZE

/-- Model of `self.current_page = max(0, min(self.current_page, self.total_pages - 1))`
(Python integers, so the page survives as a signed value before the clamp). -/
def clamp_page (page : Int) (tp : Nat) : Int :=
  max 0 (min page ((tp : Int) - 1))

/-- Model of
`page_ids = self.filtered_ids[self.current_page*self.PAGE_SIZE:(self.current_page+1)*self.PAGE_SIZE]`
evaluated after the clamp.  A Python slice `l[a:a+k]` with `0 ≤ a` is
`(l.drop a).take k`. -/
def page_ids (filtered : List Nat) (page : Int) : List Nat :=
  ((filtered.drop ((clamp_page page (total_pages filtered)).toNat * PAGE_SIZE)).take PAGE_SIZE)

/-- The slice the table would show for an in-range page number `p`. -/
def page_slice (filtered : List Nat) (p : Nat) : List Nat :=
  (filtered.drop (p * PAGE_SIZE)).take PAGE_SIZE

lemma join_slices (k : Nat) :
    ∀ (tp : Nat) (l : List Nat), l.length ≤ tp * k →
      ((List.range tp).map (fun p => (l.drop (p * k)).take k)).flatten = l := by
  intro tp
  induction tp with
  | zero =>
    intro l h
    simp only [Nat.zero_mul, Nat.le_zero, List.length_eq_zero] at h
    simp [h]
  | succ n ih =>
    intro l h
    rw [List.range_succ_eq_map]
    simp only [List.map_cons, List.map_map, List.flatten_cons, Nat.zero_mul, List.drop_zero]
    have hmap : (List.range n).map ((fun p => (l.drop (p * k)).take k) ∘ Nat.succ)
        = (List.range n).map (fun p => ((l.drop k).drop (p * k)).take k) := by
      apply List.map_congr_left
      intro p _
      simp only [Function.comp_apply]
      rw [List.drop_drop, Nat.succ_mul, Nat.add_comm]
    have h' : l.length ≤ n * k + k := by
      have hmul : (n + 1) * k = n * k + k := by ring
      rw [hmul] at h
      exact h
    have hlen : (l.drop k).length ≤ n * k := by
      rw [List.length_drop, Nat.sub_le_iff_le_add]
      exact h'
    rw [hmap, ih (l.drop k) hlen]
    exact List.take_append_drop k l

lemma total_pages_bounds (f : List Nat) :
    50 * total_pages f ≤ f.length + 49 ∧ f.length ≤ 50 * total_pages f := by
  unfold total_pages PAGE_SIZE
  omega

lemma length_le_total_pages_mul (f : List Nat) :
    f.length ≤ total_pages f * PAGE_SIZE := by
  have h := (total_pages_bounds f).2
  unfold PAGE_SIZE
  omega

lemma total_pages_eq_ceil (f : List Nat) :
    (total_pages f : ℤ) = ⌈(f.length : ℚ) / (PAGE_SIZE : ℚ)⌉ := by
  obtain ⟨h1, h2⟩ := total_pages_bounds f
  have h50 : (0 : ℚ) < (50 : ℚ) := by norm_num
  have hps : ((PAGE_SIZE : ℕ) : ℚ) = (50 : ℚ) := by norm_num [PAGE_SIZE]
  rw [hps, eq_comm, Int.ceil_eq_iff]
  have hq1 : (50 : ℚ) * (total_pages f : ℚ) ≤ (f.length : ℚ) + 49 := by exact_mod_cast h1
  have hq2 : ((f.length : ℚ)) ≤ (50 : ℚ) * (total_pages f : ℚ) := by exact_mod_cast h2
  refine ⟨?_, ?_⟩
  · rw [lt_div_iff₀ h50]
    push_cast
    linarith
  · rw [div_le_iff₀ h50]
    push_cast
    linarith

/-- C1: `refresh_table` pagination.  `total_pages` is the ceiling of
`len(filtered) / 50`; the page is clamped to `max(0, min(page, total_pages - 1))`;
`page_ids` is the `PAGE_SIZE`-wide slice at the clamped page; for non-empty
`filtered` the concatenation of all pages in page order is exactly `filtered`
(no duplicates or omissions); for empty `filtered` there are zero pages and the
shown slice is empty. -/
theorem refresh_table_paginate_correct (filtered : List Nat) (page : Int) :
    (total_pages filtered : ℤ) = ⌈(filtered.length : ℚ) / (PAGE_SIZE : ℚ)⌉
    ∧ clamp_page page (total_pages filtered) = max 0 (min page ((total_pages filtered : Int) - 1))
    ∧ page_ids filtered page
        = ((filtered.drop ((clamp_page page (total_pages filtered)).toNat * PAGE_SIZE)).take PAGE_SIZE)
    ∧ (filtered ≠ [] → ((List.range (total_pages filtered)).map (page_slice filtered)).flatten = filtered)
    ∧ (filtered = [] → total_pages filtered = 0 ∧ page_ids filtered page = []) := by
  refine ⟨total_pages_eq_ceil filtered, rfl, rfl, ?_, ?_⟩
  · intro _
    exact join_slices PAGE_SIZE (total_pages filtered) filtered (length_le_total_pages_mul filtered)
  · intro h
    subst h
    constructor
    · rfl
    · simp [page_ids]

/-- C1 witness: the theorem instantiated at the empty list and at a concrete
non-empty list. -/
theorem refresh_table_paginate_correct_witness :
    (total_pages [] = 0 ∧ page_ids [] 3 = [])
    ∧ ((List.range (total_pages [5, 3, 9, 1])).map (page_slice [5, 3, 9, 1])).flatten = [5, 3, 9, 1] :=
  ⟨(refresh_table_paginate_correct [] 3).2.2.2.2 rfl,
   (refresh_table_paginate_correct [5, 3, 9, 1] 0).2.2.2.1 (by decide)⟩

/-! ## Filtering and the search-result cache (`MainWindow.refresh_table`, gui.py lines 578-609)

The external engine is modelled as the two calls this code path makes:
`manager.search(final_q)` and `manager.cache.all_field_for('tags', ids)`.
A `none`/`false` outcome models the call raising an exception. -/

/-- External engine as seen from `refresh_table`.  `searchFn q = none` models
`manager.search(q)` raising; `tagsOk = false` models
`all_field_for('tags', ids)` raising; `tagsFn bid` is `tag_map.get(bid, ())`. -/
structure Engine where
  searchFn : String → Option (List Nat)
  tagsFn : Nat → List String
  tagsOk : Bool

/-- Controller state read and written by the filter portion of `refresh_table`:
`self.sorted_book_ids`, `self._search_ids_cache` (as an association list, most
recent entry first, matching dict lookup), and `self.valid_tags`. -/
structure ViewState where
  sorted_book_ids : List Nat
  search_ids_cache : List (String × List Nat)
  valid_tags : List String
deriving DecidableEq

/-- Outcome of one run of the filter portion of `refresh_table`:
the new `self.filtered_ids`, the updated state, how many `manager.search`
calls were issued, and whether a user-visible error was reported
(the `except:` at gui.py line 609 shows no message box). -/
structure FilterResult where
  filtered_ids : List Nat
  state : ViewState
  search_calls : Nat
  error_reported : Bool
deriving DecidableEq

/-- Model of the free-text clause built at gui.py line 584. -/
def text_clause (search : String) : String :=
  "(title:\"~" ++ search ++ "\" or authors:\"~" ++ search ++ "\" or tags:\"~"
    ++ search ++ "\" or publisher:\"~" ++ search ++ "\")"

/-- Model of the language-facet clause (gui.py lines 585-586).
`none` models the Python `None`; the empty string and `"all"` are falsy or
explicitly excluded, so they contribute no clause. -/
def lang_clauses (lang_target : Option String) : List String :=
  match lang_target with
  | none => []
  | some l =>
    if l = "" ∨ l = "all" then []
    else if l = "none" then ["languages:false"]
    else ["languages:\"=" ++ l ++ "\""]

/-- Model of the tag-facet clauses (gui.py lines 587-590): `"none"` becomes
`tags:false`, `"invalid"` adds no clause (handled by the local post-filter),
any other target becomes an exact-match clause. -/
def tag_clauses (tag_targets : List String) : List String :=
  tag_targets.filterMap (fun t =>
    if t = "none" then some "tags:false"
    else if t = "invalid" then none
    else some ("tags:\"=" ++ t ++ "\""))

/-- Model of `final_q = " and ".join(q) if q else ""` (gui.py line 592). -/
def build_query (search : String) (lang_target : Option String) (tag_targets : List String) : String :=
  String.intercalate " and "
    ((if search = "" then [] else [text_clause search])
      ++ lang_clauses lang_target ++ tag_clauses tag_targets)

/-- Model of `[bid for bid in self.sorted_book_ids if bid in matched]`
(gui.py lines 599 and 603): the match-set restricted to SortedIndex order. -/
def order_filter (sorted : List Nat) (matched : List Nat) : List Nat :=
  sorted.filter (fun bid => matched.contains bid)

/-- Model of the local "invalid tag" post-filter (gui.py lines 605-608):
keep only ids that carry at least one tag outside the known vocabulary. -/
def invalid_tag_post_filter (eng : Engine) (valid : List String) (ids : List Nat) : List Nat :=
  ids.filter (fun bid => (eng.tagsFn bid).any (fun t => !(valid.contains t)))

/-- Model of the `try:`/`except:` filter portion of `refresh_table`
(gui.py lines 592-609).  The first component of `step1` is `none` exactly when
`manager.search` raised; the cache update at line 602 happens before the
post-filter, so a post-filter failure still leaves the new entry cached. -/
def refresh_filter (eng : Engine) (st : ViewState) (search : String)
    (lang_target : Option String) (tag_targets : List String) : FilterResult :=
  let final_q := build_query search lang_target tag_targets
  let step1 : Option (List Nat) × List (String × List Nat) × Nat :=
    if final_q = "" then
      (some st.sorted_book_ids, st.search_ids_cache, 0)
    else
      match st.search_ids_cache.lookup final_q with
      | some matched => (some (order_filter st.sorted_book_ids matched), st.search_ids_cache, 0)
      | none =>
        match eng.searchFn final_q with
        | some matched =>
          (some (order_filter st.sorted_book_ids matched),
            (final_q, matched) :: st.search_ids_cache, 1)
        | none => (none, st.search_ids_cache, 1)
  match step1 with
  | (none, cache1, calls) =>
    ⟨[], { st with search_ids_cache := cache1 }, calls, false⟩
  | (some f1, cache1, calls) =>
    if tag_targets.contains "invalid" then
      if eng.tagsOk then
        ⟨invalid_tag_post_filter eng st.valid_tags f1,
          { st with search_ids_cache := cache1 }, calls, false⟩
      else
        ⟨[], { st with search_ids_cache := cache1 }, calls, false⟩
    else
      ⟨f1, { st with search_ids_cache := cache1 }, calls, false⟩

/-- Engine returning the unordered match-set `{3, 1}` for every query. -/
def hit_engine : Engine := ⟨fun _ => some [3, 1], fun _ => [], true⟩

/-- Engine whose `search` call always raises. -/
def failing_engine : Engine := ⟨fun _ => none, fun _ => [], true⟩

/-- Pre-state with the spec's example SortedIndex `[5, 3, 9, 1]` and an empty
search cache. -/
def demo_state : ViewState := ⟨[5, 3, 9, 1], [], []⟩

/-- C2: issuing the same canonical query twice with no intervening
invalidation makes the second run hit the ResultCache: it issues zero
`manager.search` calls and returns the same ordered id sequence as the first
run.  The hypothesis states that the engine does not raise on this query
(failure behaviour is the subject of the error-handling claim). -/
theorem refresh_filter_second_call_cached (eng : Engine) (st : ViewState) (search : String)
    (lang_target : Option String) (tag_targets : List String)
    (hsearch : eng.searchFn (build_query search lang_target tag_targets) ≠ none) :
    (refresh_filter eng (refresh_filter eng st search lang_target tag_targets).state
        search lang_target tag_targets).search_calls = 0
    ∧ (refresh_filter eng (refresh_filter eng st search lang_target tag_targets).state
        search lang_target tag_targets).filtered_ids
      = (refresh_filter eng st search lang_target tag_targets).filtered_ids := by
  set fq := build_query search lang_target tag_targets with hfq
  by_cases hq : fq = ""
  · by_cases hi : "invalid" ∈ tag_targets <;> by_cases ht : eng.tagsOk = true <;>
      simp [refresh_filter, ← hfq, hq, hi, ht]
  · cases hc : st.search_ids_cache.lookup fq with
    | some m =>
      by_cases hi : "invalid" ∈ tag_targets <;> by_cases ht : eng.tagsOk = true <;>
        simp [refresh_filter, ← hfq, hq, hc, hi, ht]
    | none =>
      cases hs : eng.searchFn fq with
      | none => exact absurd hs hsearch
      | some m =>
        by_cases hi : "invalid" ∈ tag_targets <;> by_cases ht : eng.tagsOk = true <;>
          simp [refresh_filter, ← hfq, hq, hc, hs, hi, ht, List.lookup]

/-- C2 witness: concrete engine and state; the second identical query issues
no search call and repeats the first ordered result. -/
theorem refresh_filter_second_call_cached_witness :
    (refresh_filter hit_engine (refresh_filter hit_engine demo_state "x" none []).state
        "x" none []).search_calls = 0
    ∧ (refresh_filter hit_engine (refresh_filter hit_engine demo_state "x" none []).state
        "x" none []).filtered_ids
      = (refresh_filter hit_engine demo_state "x" none []).filtered_ids :=
  refresh_filter_second_call_cached hit_engine demo_state "x" none [] (by simp [hit_engine])

/-- C3: the filtered result is the elements of SortedIndex that belong to the
engine's unordered match-set, in SortedIndex order. -/
theorem refresh_filter_intersection_order (eng : Engine) (st : ViewState) (search : String)
    (lang_target : Option String) (tag_targets : List String) (matched : List Nat)
    (hq : build_query search lang_target tag_targets ≠ "")
    (hmiss : st.search_ids_cache.lookup (build_query search lang_target tag_targets) = none)
    (hs : eng.searchFn (build_query search lang_target tag_targets) = some matched)
    (hinv : "invalid" ∉ tag_targets) :
    (refresh_filter eng st search lang_target tag_targets).filtered_ids
      = st.sorted_book_ids.filter (fun bid => matched.contains bid) := by
  simp [refresh_filter, hq, hmiss, hs, hinv, order_filter]

/-- C3 witness: match-set `{3, 1}` against SortedIndex `[5, 3, 9, 1]` gives
`[3, 1]` (SortedIndex order, not match-set order). -/
theorem refresh_filter_intersection_order_witness :
    (refresh_filter hit_engine demo_state "x" none []).filtered_ids
        = [5, 3, 9, 1].filter (fun bid => [3, 1].contains bid)
    ∧ (refresh_filter hit_engine demo_state "x" none []).filtered_ids = [3, 1] :=
  ⟨refresh_filter_intersection_order hit_engine demo_state "x" none [] [3, 1]
      (by decide) rfl rfl (by decide),
   (refresh_filter_intersection_order hit_engine demo_state "x" none [] [3, 1]
      (by decide) rfl rfl (by decide)).trans (by decide)⟩

/-- C4: with empty free text and empty facets (language `None`/empty/`"all"`,
no tag targets) the filter returns SortedIndex verbatim, issues zero search
calls, and leaves the state untouched. -/
theorem refresh_filter_empty_query_verbatim (eng : Engine) (st : ViewState)
    (lang_target : Option String)
    (hlang : lang_target = none ∨ lang_target = some "" ∨ lang_target = some "all") :
    refresh_filter eng st "" lang_target [] = ⟨st.sorted_book_ids, st, 0, false⟩ := by
  have hq : build_query "" lang_target [] = "" := by
    rcases hlang with h | h | h <;> subst h <;> rfl
  simp [refresh_filter, hq]

/-- C4 witness: SortedIndex `[5, 3, 9, 1]`, empty filter: unchanged result,
zero external search calls. -/
theorem refresh_filter_empty_query_verbatim_witness :
    refresh_filter failing_engine demo_state "" (some "all") []
      = ⟨[5, 3, 9, 1], demo_state, 0, false⟩ :=
  refresh_filter_empty_query_verbatim failing_engine demo_state (some "all") (Or.inr (Or.inr rfl))

/-- C5 counterexample: when the external search raises, `refresh_table`
returns an empty sequence but reports no user-visible error (the bare
`except:` at gui.py line 609 shows no message box), contradicting the claim
that a user-visible error is reported. -/
theorem refresh_filter_failure_counterexample :
    failing_engine.searchFn (build_query "x" none []) = none
    ∧ (refresh_filter failing_engine demo_state "x" none []).filtered_ids = []
    ∧ ¬ ((refresh_filter failing_engine demo_state "x" none []).error_reported = true) := by
  refine ⟨rfl, by decide, by decide⟩

/-- C5 amended: on any engine failure during the filter run, the result is
the empty sequence, the failure does not propagate and no user-visible error
is reported; SortedIndex and the tag vocabulary are left as-is, and the
ResultCache is left as-is except that a match-set successfully fetched before
a failing invalid-tag post-filter call remains cached. -/
theorem refresh_filter_failure_degrades (eng : Engine) (st : ViewState) (search : String)
    (lang_target : Option String) (tag_targets : List String)
    (hfail :
      (build_query search lang_target tag_targets ≠ ""
        ∧ st.search_ids_cache.lookup (build_query search lang_target tag_targets) = none
        ∧ eng.searchFn (build_query search lang_target tag_targets) = none)
      ∨ ("invalid" ∈ tag_targets ∧ eng.tagsOk = false)) :
    (refresh_filter eng st search lang_target tag_targets).filtered_ids = []
    ∧ (refresh_filter eng st search lang_target tag_targets).error_reported = false
    ∧ (refresh_filter eng st search lang_target tag_targets).state.sorted_book_ids
        = st.sorted_book_ids
    ∧ (refresh_filter eng st search lang_target tag_targets).state.valid_tags = st.valid_tags
    ∧ ((refresh_filter eng st search lang_target tag_targets).state.search_ids_cache
          = st.search_ids_cache
        ∨ ∃ m, eng.searchFn (build_query search lang_target tag_targets) = some m
          ∧ (refresh_filter eng st search lang_target tag_targets).state.search_ids_cache
            = (build_query search lang_target tag_targets, m) :: st.search_ids_cache) := by
  set fq := build_query search lang_target tag_targets with hfq
  rcases hfail with ⟨hq, hmiss, hraise⟩ | ⟨hinv, htags⟩
  · refine ⟨?_, ?_, ?_, ?_, Or.inl ?_⟩ <;>
      simp [refresh_filter, ← hfq, hq, hmiss, hraise]
  · by_cases hq : fq = ""
    · refine ⟨?_, ?_, ?_, ?_, Or.inl ?_⟩ <;>
        simp [refresh_filter, ← hfq, hq, hinv, htags]
    · cases hc : st.search_ids_cache.lookup fq with
      | some m =>
        refine ⟨?_, ?_, ?_, ?_, Or.inl ?_⟩ <;>
          simp [refresh_filter, ← hfq, hq, hc, hinv, htags]
      | none =>
        cases hs : eng.searchFn fq with
        | none =>
          refine ⟨?_, ?_, ?_, ?_, Or.inl ?_⟩ <;>
            simp [refresh_filter, ← hfq, hq, hc, hs, hinv, htags]
        | some m =>
          refine ⟨?_, ?_, ?_, ?_, Or.inr ⟨m, rfl, ?_⟩⟩ <;>
            simp [refresh_filter, ← hfq, hq, hc, hs, hinv, htags]


/-- C5 amended witness: the failing engine on a concrete query yields an
empty result, silent degrade, and untouched state. -/
theorem refresh_filter_failure_degrades_witness :
    (refresh_filter failing_engine demo_state "x" none []).filtered_ids = []
    ∧ (refresh_filter failing_engine demo_state "x" none []).error_reported = false
    ∧ (refresh_filter failing_engine demo_state "x" none []).state.sorted_book_ids
        = demo_state.sorted_book_ids
    ∧ (refresh_filter failing_engine demo_state "x" none []).state.valid_tags
        = demo_state.valid_tags
    ∧ ((refresh_filter failing_engine demo_state "x" none []).state.search_ids_cache
          = demo_state.search_ids_cache
        ∨ ∃ m, failing_engine.searchFn (build_query "x" none []) = some m
          ∧ (refresh_filter failing_engine demo_state "x" none []).state.search_ids_cache
            = (build_query "x" none [], m) :: demo_state.search_ids_cache) :=
  refresh_filter_failure_degrades failing_engine demo_state "x" none []
    (Or.inl ⟨by decide, rfl, rfl⟩)

/-! ## Cache invalidation after mutations
(`MainWindow.delete_selected` gui.py lines 763-774,
`MainWindow.browse_trash` lines 778-785,
`MainWindow._do_edit.on_finished` lines 834-840) -/

/-- Caches touched by the invalidation paths: `self._cached_sorted_ids`
(`none` = invalidated, forcing `load_books` to refetch the SortedIndex) and
`self._search_ids_cache`. -/
structure CacheState where
  cached_sorted_ids : Option (List Nat)
  search_ids_cache : List (String × List Nat)
deriving DecidableEq

/-- The three mutation kinds whose completion paths invalidate caches. -/
inductive MutationReason
  | delete
  | restore
  | edit
deriving DecidableEq

/-- Model of the cache invalidation performed after each mutation:
`delete_selected` and `browse_trash` (restore) run
`self._cached_sorted_ids = None; self._search_ids_cache.clear()`, while the
bulk-edit `on_finished` success path runs only `self._search_ids_cache.clear()`
and reloads with `keep_page=True`, reusing the cached SortedIndex. -/
def invalidate (st : CacheState) (r : MutationReason) : CacheState :=
  match r with
  | .delete => ⟨none, []⟩
  | .restore => ⟨none, []⟩
  | .edit => ⟨st.cached_sorted_ids, []⟩

/-- C6: `invalidate` clears the ResultCache unconditionally, clears the cached
SortedIndex exactly for delete/restore and leaves it unchanged for an
edit-only invalidation; after `invalidate(delete)` no pre-invalidation
ResultCache entry can be looked up, so a subsequent `apply_filter` with a
non-empty canonical query misses the cache and issues one external search
call. -/
theorem invalidate_spec (st : CacheState) (r : MutationReason) :
    (invalidate st r).search_ids_cache = []
    ∧ (r = .edit → (invalidate st r).cached_sorted_ids = st.cached_sorted_ids)
    ∧ (r = .delete ∨ r = .restore → (invalidate st r).cached_sorted_ids = none)
    ∧ (∀ q, ((invalidate st .delete).search_ids_cache).lookup q = none)
    ∧ (∀ (eng : Engine) (sorted : List Nat) (valid : List String)
        (search : String) (lang_target : Option String) (tag_targets : List String),
        build_query search lang_target tag_targets ≠ "" →
        (refresh_filter eng
            ⟨sorted, (invalidate st .delete).search_ids_cache, valid⟩
            search lang_target tag_targets).search_calls = 1) := by
  refine ⟨?_, ?_, ?_, ?_, ?_⟩
  · cases r <;> rfl
  · intro h; subst h; rfl
  · rintro (h | h) <;> subst h <;> rfl
  · intro q; rfl
  · intro eng sorted valid search lang_target tag_targets hq
    cases hs : eng.searchFn (build_query search lang_target tag_targets) with
    | none => simp [refresh_filter, invalidate, hq, hs]
    | some m =>
      by_cases hi : "invalid" ∈ tag_targets <;> by_cases ht : eng.tagsOk = true <;>
        simp [refresh_filter, invalidate, hq, hs, hi, ht]

/-- C6 witness: a concrete pre-invalidation cache entry is unreachable after
`invalidate(delete)`, and the re-issued query performs one search call. -/
theorem invalidate_spec_witness :
    (invalidate ⟨some [5, 3, 9, 1], [("q", [3, 1])]⟩ .delete).search_ids_cache = []
    ∧ ((invalidate ⟨some [5, 3, 9, 1], [("q", [3, 1])]⟩ .delete).search_ids_cache).lookup "q" = none
    ∧ (refresh_filter hit_engine
        ⟨[5, 3, 9, 1], (invalidate ⟨some [5, 3, 9, 1], [("q", [3, 1])]⟩ .delete).search_ids_cache, []⟩
        "x" none []).search_calls = 1 :=
  ⟨(invalidate_spec ⟨some [5, 3, 9, 1], [("q", [3, 1])]⟩ .delete).1,
   (invalidate_spec ⟨some [5, 3, 9, 1], [("q", [3, 1])]⟩ .delete).2.2.2.1 "q",
   (invalidate_spec ⟨some [5, 3, 9, 1], [("q", [3, 1])]⟩ .delete).2.2.2.2
      hit_engine [5, 3, 9, 1] [] "x" none [] (by decide)⟩

/-! ## Date parsing (`datetime.strptime(v, '%Y-%m-%d')`, gui.py line 148)

`strptime` matches `%Y` as exactly four digits, `%m` as the regex
`1[0-2]|0[1-9]|[1-9]`, `%d` as `3[01]|[12]\d|0[1-9]|[1-9]`, the literal `-`
between them, requires the whole string to be consumed, and then the
`datetime` constructor validates `1 <= year` and that the day exists in the
month (Gregorian leap rules). -/

/-- Gregorian leap-year rule used by `datetime`. -/
def is_leap (y : Nat) : Bool := y % 4 == 0 && (y % 100 != 0 || y % 400 == 0)

/-- Number of days of month `m` in year `y` (months are 1-12 here). -/
def days_in_month (y m : Nat) : Nat :=
  if m = 2 then (if is_leap y then 29 else 28)
  else if m = 4 ∨ m = 6 ∨ m = 9 ∨ m = 11 then 30
  else 31

/-- Numeric value of a digit character. -/
def digit_val (c : Char) : Nat := c.toNat - 48

/-- Decimal value of a digit string. -/
def digits_to_nat (cs : List Char) : Nat := cs.foldl (fun a c => a * 10 + digit_val c) 0

/-- Split a character list at every `-` (the literal separators of the
format); a string with `k` dashes yields `k + 1` segments. -/
def split_dash : List Char → List (List Char)
  | [] => [[]]
  | c :: cs =>
    let r := split_dash cs
    if c = '-' then [] :: r
    else
      match r with
      | [] => [[c]]
      | h :: t => (c :: h) :: t

/-- Whether `c` is a decimal digit. -/
def is_digit_char (c : Char) : Bool := 48 ≤ c.toNat && c.toNat ≤ 57

/-- The `%Y` field: exactly four digits. -/
def year_seg_valid (cs : List Char) : Bool :=
  cs.length == 4 && cs.all is_digit_char

/-- The `%m` field: the regex `1[0-2]|0[1-9]|[1-9]` consuming the whole
segment. -/
def month_seg_valid : List Char → Bool
  | [c] => 49 ≤ c.toNat && c.toNat ≤ 57
  | [c1, c2] =>
    (c1 == '1' && 48 ≤ c2.toNat && c2.toNat ≤ 50)
      || (c1 == '0' && 49 ≤ c2.toNat && c2.toNat ≤ 57)
  | _ => false

/-- The `%d` field: the regex `3[01]|[12]\d|0[1-9]|[1-9]` consuming the whole
segment. -/
def day_seg_valid : List Char → Bool
  | [c] => 49 ≤ c.toNat && c.toNat ≤ 57
  | [c1, c2] =>
    (c1 == '3' && (c2 == '0' || c2 == '1'))
      || ((c1 == '1' || c1 == '2') && 48 ≤ c2.toNat && c2.toNat ≤ 57)
      || (c1 == '0' && 49 ≤ c2.toNat && c2.toNat ≤ 57)
  | _ => false

/-- Model of `datetime.strptime(v, '%Y-%m-%d')`: `some (y, m, d)` on success,
`none` when `strptime` or the `datetime` constructor raises. -/
def parse_pubdate (s : String) : Option (Nat × Nat × Nat) :=
  match split_dash s.toList with
  | [ys, ms, ds] =>
    if year_seg_valid ys && month_seg_valid ms && day_seg_valid ds then
      let y := digits_to_nat ys
      let m := digits_to_nat ms
      let d := digits_to_nat ds
      if 1 ≤ y ∧ d ≤ days_in_month y m then some (y, m, d) else none
    else none
  | _ => none

/-! ## Bulk field update worker (`UpdateWorker.run`, gui.py lines 139-160) -/

/-- Observable events of one `UpdateWorker.run`: the bulk-update transaction
brackets, each successful `manager.set_field` write, each `progress.emit`,
and the terminal `finished.emit`. -/
inductive WEvent
  | start_bulk
  | set_field_ev (field : String) (bid : Nat)
  | progress_ev (pct : Nat)
  | end_bulk
  | finished_ev (ok : Bool) (msg : String)
deriving DecidableEq

/-- Model of the inner `for f, v in self.updates.items()` loop for one book.
`fails f bid = some msg` models `manager.set_field(f, ...)` raising with
description `msg`.  For `pubdate` the inner `try/except: pass` swallows both
a parse failure and a `set_field` failure; for any other field a `set_field`
failure aborts the batch with that message. -/
def apply_updates (fails : String → Nat → Option String) (bid : Nat) :
    List (String × String) → List WEvent × Option String
  | [] => ([], none)
  | (f, v) :: rest =>
    if f = "pubdate" then
      match parse_pubdate v with
      | none => apply_updates fails bid rest
      | some _ =>
        match fails f bid with
        | some _ => apply_updates fails bid rest
        | none =>
          let r := apply_updates fails bid rest
          (WEvent.set_field_ev f bid :: r.1, r.2)
    else
      match fails f bid with
      | some msg => ([], some msg)
      | none =>
        let r := apply_updates fails bid rest
        (WEvent.set_field_ev f bid :: r.1, r.2)

/-- Whether `2 ^ k ≤ p / q` for naturals `p, q > 0` and a signed exponent. -/
def pow2_le_frac (k : Int) (p q : Nat) : Bool :=
  if 0 ≤ k then decide (2 ^ k.toNat * q ≤ p) else decide (q ≤ p * 2 ^ (-k).toNat)

/-- Fuelled halving loop for the base-2 logarithm; structural recursion so
that kernel reduction can evaluate it on literals. -/
def log2_fuel : Nat → Nat → Nat
  | 0, _ => 0
  | fuel + 1, n => if n ≤ 1 then 0 else log2_fuel fuel (n / 2) + 1

/-- Floor of the base-2 logarithm of a positive natural (`n` itself is ample
fuel, since at most `log2 n + 1` halvings occur). -/
def nat_log2 (n : Nat) : Nat := log2_fuel n n

/-- Largest `k` with `2 ^ k ≤ p / q`, for `p, q > 0`: the binade of the
positive rational `p / q`. -/
def floor_log2 (p q : Nat) : Int :=
  let k0 : Int := (nat_log2 p : Int) - (nat_log2 q : Int)
  if pow2_le_frac k0 p q then k0 else k0 - 1

/-- Round the nonnegative rational `num / den` to the nearest integer,
ties to even (the IEEE default rounding). -/
def round_half_even (num den : Nat) : Nat :=
  let f := num / den
  let r := num % den
  if 2 * r < den then f
  else if den < 2 * r then f + 1
  else if f % 2 = 0 then f else f + 1

/-- Correctly rounded IEEE binary64 value of the positive rational `p / q`,
returned as mantissa and exponent with value `m * 2 ^ e`: the mantissa is
scaled into `[2^52, 2^53]` (or the exponent clamped at the subnormal floor)
and rounded to nearest, ties to even. -/
def round64_frac (p q : Nat) : Nat × Int :=
  let e : Int := max (floor_log2 p q - 52) (-1074)
  let np : Nat × Nat :=
    if 0 ≤ e then (p, q * 2 ^ e.toNat) else (p * 2 ^ (-e).toNat, q)
  (round_half_even np.1 np.2, e)

/-- Model of `int((i + 1) / total * 100)` as CPython computes it for
`a = i + 1`, `n = total`: the division `a / n` is correctly rounded to
binary64, the product with the exact constant `100.0` is correctly rounded
to binary64, and `int` truncates toward zero.  This differs from the exact
integer percentage `a * 100 / n` at rounding boundaries (for example
`a = 29`, `n = 50` yields `57.99999999999999`, hence 57, not 58). -/
def py_progress (a n : Nat) : Nat :=
  if n = 0 then 0
  else
    let r1 := round64_frac a n
    if r1.1 = 0 then 0
    else
      let pq : Nat × Nat :=
        if 0 ≤ r1.2 then (r1.1 * 2 ^ r1.2.toNat * 100, 1)
        else (r1.1 * 100, 2 ^ (-r1.2).toNat)
      let r2 := round64_frac pq.1 pq.2
      if 0 ≤ r2.2 then r2.1 * 2 ^ r2.2.toNat else r2.1 / 2 ^ (-r2.2).toNat

/-- Model of the outer `for i, bid in enumerate(self.bids)` loop.
After each book completes, `self.progress.emit(int((i + 1) / total * 100))`
fires, with the emitted value computed in binary64 arithmetic as
`py_progress`; a raised error stops the loop and is carried out. -/
def run_books (fails : String → Nat → Option String) (updates : List (String × String))
    (total : Nat) : List (Nat × Nat) → List WEvent × Option String
  | [] => ([], none)
  | (i, bid) :: rest =>
    match apply_updates fails bid updates with
    | (evs, some msg) => (evs, some msg)
    | (evs, none) =>
      let r := run_books fails updates total rest
      (evs ++ WEvent.progress_ev (py_progress (i + 1) total) :: r.1, r.2)

/-- Model of `UpdateWorker.run`: `start_bulk_update`, the book loop, the
`finally: end_bulk_update`, then `finished.emit(True, "")` on success or the
outer `except` emitting `finished.emit(False, str(e))`. -/
def run_worker (fails : String → Nat → Option String) (bids : List Nat)
    (updates : List (String × String)) : List WEvent :=
  match run_books fails updates bids.length (List.enumFrom 0 bids) with
  | (evs, none) => WEvent.start_bulk :: evs ++ [WEvent.end_bulk, WEvent.finished_ev true ""]
  | (evs, some msg) => WEvent.start_bulk :: evs ++ [WEvent.end_bulk, WEvent.finished_ev false msg]

/-- Description of the first unexpected (batch-aborting) error while applying
`updates` to one book, if any: the first failing `set_field` on a
non-`pubdate` field. -/
def first_book_err (fails : String → Nat → Option String) (bid : Nat) :
    List (String × String) → Option String
  | [] => none
  | (f, _v) :: rest =>
    if f = "pubdate" then first_book_err fails bid rest
    else
      match fails f bid with
      | some m => some m
      | none => first_book_err fails bid rest

/-- Description of the first batch-aborting error over the whole id list. -/
def first_batch_err (fails : String → Nat → Option String)
    (updates : List (String × String)) : List Nat → Option String
  | [] => none
  | bid :: rest =>
    match first_book_err fails bid updates with
    | some m => some m
    | none => first_batch_err fails updates rest

/-- The sequence of emitted progress percentages in an event trace. -/
def progress_events (evs : List WEvent) : List Nat :=
  evs.filterMap (fun e => match e with | WEvent.progress_ev p => some p | _ => none)

lemma progress_events_cons_set_field (f : String) (b : Nat) (l : List WEvent) :
    progress_events (WEvent.set_field_ev f b :: l) = progress_events l := rfl

lemma progress_events_cons_progress (p : Nat) (l : List WEvent) :
    progress_events (WEvent.progress_ev p :: l) = p :: progress_events l := rfl

lemma progress_events_append (a b : List WEvent) :
    progress_events (a ++ b) = progress_events a ++ progress_events b :=
  List.filterMap_append a b _

lemma apply_updates_err (fails : String → Nat → Option String) (bid : Nat) :
    ∀ us : List (String × String),
      (apply_updates fails bid us).2 = first_book_err fails bid us
  | [] => rfl
  | (f, w) :: rest => by
    by_cases hf : f = "pubdate"
    · subst hf
      have h1 : first_book_err fails bid (("pubdate", w) :: rest)
          = first_book_err fails bid rest := rfl
      rw [h1]
      cases hp : parse_pubdate w with
      | none =>
        have h2 : apply_updates fails bid (("pubdate", w) :: rest)
            = apply_updates fails bid rest := by simp [apply_updates, hp]
        rw [h2]
        exact apply_updates_err fails bid rest
      | some d =>
        cases hfb : fails "pubdate" bid with
        | some m =>
          have h2 : apply_updates fails bid (("pubdate", w) :: rest)
              = apply_updates fails bid rest := by simp [apply_updates, hp, hfb]
          rw [h2]
          exact apply_updates_err fails bid rest
        | none =>
          have h2 : (apply_updates fails bid (("pubdate", w) :: rest)).2
              = (apply_updates fails bid rest).2 := by simp [apply_updates, hp, hfb]
          rw [h2]
          exact apply_updates_err fails bid rest
    · cases hfb : fails f bid with
      | some m =>
        have h2 : (apply_updates fails bid ((f, w) :: rest)).2 = some m := by
          simp [apply_updates, hf, hfb]
        have h1 : first_book_err fails bid ((f, w) :: rest) = some m := by
          simp [first_book_err, hf, hfb]
        rw [h2, h1]
      | none =>
        have h2 : (apply_updates fails bid ((f, w) :: rest)).2
            = (apply_updates fails bid rest).2 := by simp [apply_updates, hf, hfb]
        have h1 : first_book_err fails bid ((f, w) :: rest)
            = first_book_err fails bid rest := by simp [first_book_err, hf, hfb]
        rw [h2, h1]
        exact apply_updates_err fails bid rest

lemma apply_updates_no_progress (fails : String → Nat → Option String) (bid : Nat) :
    ∀ us : List (String × String),
      progress_events (apply_updates fails bid us).1 = []
  | [] => rfl
  | (f, w) :: rest => by
    by_cases hf : f = "pubdate"
    · subst hf
      cases hp : parse_pubdate w with
      | none =>
        have h2 : (apply_updates fails bid (("pubdate", w) :: rest)).1
            = (apply_updates fails bid rest).1 := by simp [apply_updates, hp]
        rw [h2]
        exact apply_updates_no_progress fails bid rest
      | some d =>
        cases hfb : fails "pubdate" bid with
        | some m =>
          have h2 : (apply_updates fails bid (("pubdate", w) :: rest)).1
              = (apply_updates fails bid rest).1 := by simp [apply_updates, hp, hfb]
          rw [h2]
          exact apply_updates_no_progress fails bid rest
        | none =>
          have h2 : (apply_updates fails bid (("pubdate", w) :: rest)).1
              = WEvent.set_field_ev "pubdate" bid :: (apply_updates fails bid rest).1 := by
            simp [apply_updates, hp, hfb]
          rw [h2, progress_events_cons_set_field]
          exact apply_updates_no_progress fails bid rest
    · cases hfb : fails f bid with
      | some m =>
        have h2 : (apply_updates fails bid ((f, w) :: rest)).1 = [] := by
          simp [apply_updates, hf, hfb]
        rw [h2]
        rfl
      | none =>
        have h2 : (apply_updates fails bid ((f, w) :: rest)).1
            = WEvent.set_field_ev f bid :: (apply_updates fails bid rest).1 := by
          simp [apply_updates, hf, hfb]
        rw [h2, progress_events_cons_set_field]
        exact apply_updates_no_progress fails bid rest

lemma run_books_err (fails : String → Nat → Option String)
    (updates : List (String × String)) (total : Nat) :
    ∀ (l : List Nat) (n : Nat),
      (run_books fails updates total (List.enumFrom n l)).2 = first_batch_err fails updates l
  | [], _n => rfl
  | bid :: rest, n => by
    have he' := apply_updates_err fails bid updates
    have h1 : first_batch_err fails updates (bid :: rest)
        = match first_book_err fails bid updates with
          | some m => some m
          | none => first_batch_err fails updates rest := rfl
    rw [h1]
    cases ha : apply_updates fails bid updates with
    | mk evs err =>
      have he : err = first_book_err fails bid updates := by rw [ha] at he'; exact he'
      cases err with
      | some m =>
        have h2 : run_books fails updates total (List.enumFrom n (bid :: rest))
            = (evs, some m) := by simp [run_books, List.enumFrom, ha]
        rw [h2, ← he]
      | none =>
        have h2 : (run_books fails updates total (List.enumFrom n (bid :: rest))).2
            = (run_books fails updates total (List.enumFrom (n + 1) rest)).2 := by
          simp [run_books, List.enumFrom, ha]
        rw [h2, ← he]
        exact run_books_err fails updates total rest (n + 1)

lemma range_map_shift (L total n : Nat) :
    py_progress (n + 1) total
        :: (List.range L).map (fun i => py_progress (n + 1 + i + 1) total)
      = (List.range (L + 1)).map (fun i => py_progress (n + i + 1) total) := by
  rw [List.range_succ_eq_map]
  simp only [List.map_cons, List.map_map]
  refine List.cons_eq_cons.mpr ⟨rfl, ?_⟩
  apply List.map_congr_left
  intro i _
  simp only [Function.comp_apply, Nat.succ_eq_add_one]
  congr 1
  omega

lemma run_books_progress (fails : String → Nat → Option String)
    (updates : List (String × String)) (total : Nat) :
    ∀ (l : List Nat) (n : Nat),
      first_batch_err fails updates l = none →
      progress_events (run_books fails updates total (List.enumFrom n l)).1
        = (List.range l.length).map (fun i => py_progress (n + i + 1) total)
  | [], _n, _h => rfl
  | bid :: rest, n, h => by
    have he' := apply_updates_err fails bid updates
    cases ha : apply_updates fails bid updates with
    | mk evs err =>
      have he : err = first_book_err fails bid updates := by rw [ha] at he'; exact he'
      have h1 : first_batch_err fails updates (bid :: rest)
          = match first_book_err fails bid updates with
            | some m => some m
            | none => first_batch_err fails updates rest := rfl
      cases err with
      | some m =>
        exfalso
        rw [h1, ← he] at h
        exact Option.some_ne_none m h
      | none =>
        have hrest : first_batch_err fails updates rest = none := by
          rw [h1, ← he] at h
          exact h
        have h2 : (run_books fails updates total (List.enumFrom n (bid :: rest))).1
            = evs ++ WEvent.progress_ev (py_progress (n + 1) total)
                :: (run_books fails updates total (List.enumFrom (n + 1) rest)).1 := by
          simp [run_books, List.enumFrom, ha]
        rw [h2, progress_events_append, progress_events_cons_progress]
        have hevs : progress_events evs = [] := by
          have hnp := apply_updates_no_progress fails bid updates
          rw [ha] at hnp
          exact hnp
        rw [hevs, run_books_progress fails updates total rest (n + 1) hrest]
        simp only [List.nil_append, List.length_cons]
        exact range_map_shift rest.length total n

lemma first_book_err_none_iff (fails : String → Nat → Option String) (b : Nat) :
    ∀ us : List (String × String),
      first_book_err fails b us = none ↔ ∀ fv ∈ us, fv.1 ≠ "pubdate" → fails fv.1 b = none
  | [] => by simp [first_book_err]
  | (f, w) :: rest => by
    by_cases hf : f = "pubdate"
    · subst hf
      have h1 : first_book_err fails b (("pubdate", w) :: rest)
          = first_book_err fails b rest := rfl
      rw [h1, first_book_err_none_iff fails b rest]
      constructor
      · intro h fv hm hne
        rcases List.mem_cons.mp hm with h1 | h2
        · subst h1
          exact absurd rfl hne
        · exact h fv h2 hne
      · intro h fv hm hne
        exact h fv (List.mem_cons_of_mem _ hm) hne
    · have h1 : first_book_err fails b ((f, w) :: rest)
          = match fails f b with
            | some m => some m
            | none => first_book_err fails b rest := by
        simp [first_book_err, hf]
      rw [h1]
      cases hfb : fails f b with
      | some m =>
        constructor
        · intro h
          exact absurd h (Option.some_ne_none m)
        · intro h
          have hx := h (f, w) (List.mem_cons_self _ _) hf
          rw [hfb] at hx
          exact absurd hx (Option.some_ne_none m)
      | none =>
        rw [show (match (none : Option String) with
              | some m => some m
              | none => first_book_err fails b rest) = first_book_err fails b rest from rfl,
            first_book_err_none_iff fails b rest]
        constructor
        · intro h fv hm hne
          rcases List.mem_cons.mp hm with h1 | h2
          · subst h1
            exact hfb
          · exact h fv h2 hne
        · intro h fv hm hne
          exact h fv (List.mem_cons_of_mem _ hm) hne

lemma first_batch_err_none_iff (fails : String → Nat → Option String)
    (updates : List (String × String)) :
    ∀ bids : List Nat,
      first_batch_err fails updates bids = none ↔
        ∀ b ∈ bids, first_book_err fails b updates = none
  | [] => by simp [first_batch_err]
  | bid :: rest => by
    have h1 : first_batch_err fails updates (bid :: rest)
        = match first_book_err fails bid updates with
          | some m => some m
          | none => first_batch_err fails updates rest := rfl
    rw [h1]
    cases hb : first_book_err fails bid updates with
    | some m =>
      constructor
      · intro h
        exact absurd h (Option.some_ne_none m)
      · intro h
        have hx := h bid (List.mem_cons_self _ _)
        rw [hb] at hx
        exact absurd hx (Option.some_ne_none m)
    | none =>
      rw [show (match (none : Option String) with
            | some m => some m
            | none => first_batch_err fails updates rest)
          = first_batch_err fails updates rest from rfl,
          first_batch_err_none_iff fails updates rest]
      constructor
      · intro h b hm
        rcases List.mem_cons.mp hm with h1 | h2
        · subst h1
          exact hb
        · exact h b h2
      · intro h b hm
        exact h b (List.mem_cons_of_mem _ hm)

/-- C7: every run of the bulk update worker attempts the commit bracket
(`end_bulk_update`) even when an unexpected error is raised mid-batch, and
the terminal report is success with empty message exactly when no
non-`pubdate` `set_field` call failed, otherwise failure carrying the first
error's description. -/
theorem update_worker_commit_and_report (fails : String → Nat → Option String)
    (bids : List Nat) (updates : List (String × String)) :
    (∃ evs, run_worker fails bids updates
        = WEvent.start_bulk :: evs ++ [WEvent.end_bulk,
            WEvent.finished_ev (first_batch_err fails updates bids).isNone
              ((first_batch_err fails updates bids).getD "")])
    ∧ (first_batch_err fails updates bids = none ↔
        ∀ bid ∈ bids, ∀ fv ∈ updates, fv.1 ≠ "pubdate" → fails fv.1 bid = none) := by
  constructor
  · have he' := run_books_err fails updates bids.length bids 0
    cases hr : run_books fails updates bids.length (List.enumFrom 0 bids) with
    | mk evs err =>
      have he : err = first_batch_err fails updates bids := by rw [hr] at he'; exact he'
      refine ⟨evs, ?_⟩
      cases err with
      | none =>
        have h2 : run_worker fails bids updates
            = WEvent.start_bulk :: evs ++ [WEvent.end_bulk, WEvent.finished_ev true ""] := by
          simp [run_worker, hr]
        rw [h2, ← he]
        rfl
      | some m =>
        have h2 : run_worker fails bids updates
            = WEvent.start_bulk :: evs ++ [WEvent.end_bulk, WEvent.finished_ev false m] := by
          simp [run_worker, hr]
        rw [h2, ← he]
        rfl
  · rw [first_batch_err_none_iff fails updates bids]
    constructor
    · intro h bid hm fv hfv hne
      exact (first_book_err_none_iff fails bid updates).1 (h bid hm) fv hfv hne
    · intro h bid hm
      exact (first_book_err_none_iff fails bid updates).2 (fun fv hfv hne => h bid hm fv hfv hne)

/-- C7 witness: failure-free run over three ids reports success after the
commit bracket; a mid-batch failure still ends with the bracket and a
failure report. -/
theorem update_worker_commit_and_report_witness :
    (∃ evs, run_worker (fun _ _ => none) [1, 2, 3] [("title", "X")]
        = WEvent.start_bulk :: evs ++ [WEvent.end_bulk,
            WEvent.finished_ev
              (first_batch_err (fun _ _ => none) [("title", "X")] [1, 2, 3]).isNone
              ((first_batch_err (fun _ _ => none) [("title", "X")] [1, 2, 3]).getD "")])
    ∧ (first_batch_err (fun _ _ => none) [("title", "X")] [1, 2, 3] = none ↔
        ∀ bid ∈ [1, 2, 3], ∀ fv ∈ [("title", "X")], fv.1 ≠ "pubdate" →
          (fun (_ : String) (_ : Nat) => (none : Option String)) fv.1 bid = none) :=
  update_worker_commit_and_report (fun _ _ => none) [1, 2, 3] [("title", "X")]

/-- C8 counterexample: with 50 target identifiers (exactly one full page of
selections), the program's `int((i + 1) / total * 100)` in binary64 emits 57
after the 29th identifier — `29 / 50` rounds below `0.58` and the product is
`57.99999999999999` — while the integer percentage of identifiers processed
is `29 * 100 / 50 = 58`; so the emitted sequence is not the sequence of
integer percentages the claim asserts. -/
theorem update_worker_progress_float_counterexample :
    progress_events (run_worker (fun _ _ => none) (List.range 50) [("title", "X")])
        ≠ (List.range 50).map (fun i => (i + 1) * 100 / 50)
    ∧ (progress_events
        (run_worker (fun _ _ => none) (List.range 50) [("title", "X")]))[28]? = some 57
    ∧ 29 * 100 / 50 = 58 :=
  ⟨by decide, by decide, rfl⟩

/-- C8 amended: with no mid-batch failure and a non-empty id list, the worker
emits exactly one progress event per identifier, in order, with value
`int((i + 1) / n * 100)` computed in IEEE binary64 arithmetic
(`py_progress`); this equals the exact integer percentage at `n = 3`
(33, 66, 100) but can fall one below it at rounding boundaries. -/
theorem update_worker_progress_percentages (fails : String → Nat → Option String)
    (bids : List Nat) (updates : List (String × String))
    (hok : first_batch_err fails updates bids = none) (_hne : bids ≠ []) :
    progress_events (run_worker fails bids updates)
      = (List.range bids.length).map (fun i => py_progress (i + 1) bids.length) := by
  have hp := run_books_progress fails updates bids.length bids 0 hok
  have he' := run_books_err fails updates bids.length bids 0
  cases hr : run_books fails updates bids.length (List.enumFrom 0 bids) with
  | mk evs err =>
    have he : err = first_batch_err fails updates bids := by rw [hr] at he'; exact he'
    cases err with
    | some m =>
      rw [hok] at he
      exact absurd he (Option.some_ne_none m)
    | none =>
      have hw : run_worker fails bids updates
          = WEvent.start_bulk :: evs ++ [WEvent.end_bulk, WEvent.finished_ev true ""] := by
        simp [run_worker, hr]
      have hp' : progress_events evs
          = (List.range bids.length).map (fun i => py_progress (0 + i + 1) bids.length) := by
        rw [hr] at hp
        exact hp
      rw [hw,
        show WEvent.start_bulk :: evs ++ [WEvent.end_bulk, WEvent.finished_ev true ""]
            = (WEvent.start_bulk :: evs) ++ [WEvent.end_bulk, WEvent.finished_ev true ""] from rfl,
        progress_events_append,
        show progress_events (WEvent.start_bulk :: evs) = progress_events evs from rfl,
        show progress_events [WEvent.end_bulk, WEvent.finished_ev true ""] = [] from rfl,
        List.append_nil, hp']
      apply List.map_congr_left
      intro i _
      congr 1
      omega

/-- C8 amended witness: three identifiers, fields `{title: "X"}`: the
emitted binary64 values are 33, 66, 100, matching the spec's example. -/
theorem update_worker_progress_percentages_witness :
    progress_events (run_worker (fun _ _ => none) [1, 2, 3] [("title", "X")]) = [33, 66, 100] :=
  (update_worker_progress_percentages (fun _ _ => none) [1, 2, 3] [("title", "X")]
      (by decide) (by decide)).trans (by decide)

lemma apply_updates_skip (fails : String → Nat → Option String) (bid : Nat)
    (v : String) (hv : parse_pubdate v = none) :
    ∀ (u1 u2 : List (String × String)),
      apply_updates fails bid (u1 ++ ("pubdate", v) :: u2)
        = apply_updates fails bid (u1 ++ u2)
  | [], u2 => by simp [apply_updates, hv]
  | (f, w) :: u1, u2 => by
    simp only [List.cons_append, apply_updates, List.append_eq]
    rw [apply_updates_skip fails bid v hv u1 u2]

lemma run_books_skip (fails : String → Nat → Option String) (v : String)
    (hv : parse_pubdate v = none) (u1 u2 : List (String × String)) (total : Nat) :
    ∀ l : List (Nat × Nat),
      run_books fails (u1 ++ ("pubdate", v) :: u2) total l
        = run_books fails (u1 ++ u2) total l
  | [] => rfl
  | (i, bid) :: rest => by
    simp only [run_books, apply_updates_skip fails bid v hv u1 u2]
    rw [run_books_skip fails v hv u1 u2 total rest]

/-- C9: a `pubdate` value that fails to parse as `YYYY-MM-DD` is silently
skipped for that field, leaving the whole observable run — remaining fields,
remaining books, progress and the final report — exactly as if the field had
not been requested. -/
theorem update_worker_invalid_pubdate_skipped (fails : String → Nat → Option String)
    (bids : List Nat) (u1 u2 : List (String × String)) (v : String)
    (hv : parse_pubdate v = none) :
    run_worker fails bids (u1 ++ ("pubdate", v) :: u2)
      = run_worker fails bids (u1 ++ u2) := by
  unfold run_worker
  rw [run_books_skip fails v hv u1 u2 bids.length (List.enumFrom 0 bids)]

/-- C9 witness: the invalid calendar date `"2024-13-40"` fails to parse and is
skipped for every book without aborting the remaining fields or books. -/
theorem update_worker_invalid_pubdate_skipped_witness :
    parse_pubdate "2024-13-40" = none
    ∧ run_worker (fun _ _ => none) [1, 2, 3]
        ([("title", "X")] ++ ("pubdate", "2024-13-40") :: [("authors", "A")])
      = run_worker (fun _ _ => none) [1, 2, 3] ([("title", "X")] ++ [("authors", "A")]) :=
  ⟨by decide,
   update_worker_invalid_pubdate_skipped (fun _ _ => none) [1, 2, 3]
      [("title", "X")] [("authors", "A")] "2024-13-40" (by decide)⟩

/-! ## Batched metadata fetch (`BookManager.get_metadata_batch`,
book_manager.py lines 69-104)

The engine's `all_field_for(field, book_ids)` returns a dict that may miss
ids (or hold `None`); `FieldDb` models each per-id raw value as an `Option`.
Timestamps (`ts.timestamp()`, a float) are modelled by an integer stand-in;
only presence versus the `0.0` default matters here. -/

/-- Per-field raw values of the external engine, as fetched by
`all_field_for`: `none` models a missing or `None` entry. -/
structure FieldDb where
  title : Nat → Option String
  authors : Nat → Option (List String)
  tags : Nat → Option (List String)
  timestamp : Nat → Option Int
  publisher : Nat → Option String
  pubdate : Nat → Option (Nat × Nat × Nat)
  languages : Nat → Option (List String)

/-- Mirror of the `BookMetadata` dataclass in `book_manager.py`. -/
structure BookMetadata where
  id : Nat
  title : String
  authors : List String
  tags : List String
  publisher : String
  pubdate : String
  languages : List String
  timestamp : Int
deriving DecidableEq

/-- Zero-padded two-digit decimal rendering, as in `strftime('%m'/'%d')`. -/
def pad2 (n : Nat) : String :=
  if n < 10 then "0" ++ toString n else toString n

/-- Zero-padded four-digit decimal rendering, as in `strftime('%Y')`. -/
def pad4 (n : Nat) : String :=
  if n < 10 then "000" ++ toString n
  else if n < 100 then "00" ++ toString n
  else if n < 1000 then "0" ++ toString n
  else toString n

/-- Model of `pd.strftime('%Y-%m-%d')`. -/
def format_pubdate (d : Nat × Nat × Nat) : String :=
  pad4 d.1 ++ "-" ++ pad2 d.2.1 ++ "-" ++ pad2 d.2.2

/-- The `BookMetadata(...)` built inside the loop of `get_metadata_batch`
for one id: every absent raw value is replaced by its default (empty string,
empty list, or timestamp `0.0`). -/
def mk_meta (db : FieldDb) (bid : Nat) : BookMetadata :=
  { id := bid
    title := (db.title bid).getD ""
    authors := (db.authors bid).getD []
    tags := (db.tags bid).getD []
    publisher := (db.publisher bid).getD ""
    pubdate := match db.pubdate bid with
      | some d => format_pubdate d
      | none => ""
    languages := (db.languages bid).getD []
    timestamp := (db.timestamp bid).getD 0 }

/-- Model of `BookManager.get_metadata_batch`.  Returns the result mapping
(as an association list in `book_ids` order, matching dict insertion order)
together with the number of `all_field_for` calls issued: the early return
for an empty id list issues none, otherwise one call per fetched field
(title, authors, tags, timestamp, publisher, pubdate, languages). -/
def get_metadata_batch (db : FieldDb) (book_ids : List Nat) :
    List (Nat × BookMetadata) × Nat :=
  if book_ids = [] then ([], 0)
  else (book_ids.map (fun bid => (bid, mk_meta db bid)), 7)

/-- C10: the batched fetch keys its result by exactly the requested id list
(every requested id is present, mapped to the record with defaulted absent
fields), and the empty request returns the empty mapping with zero
`all_field_for` calls. -/
theorem get_metadata_batch_spec (db : FieldDb) (book_ids : List Nat) :
    ((get_metadata_batch db book_ids).1.map Prod.fst = book_ids)
    ∧ (∀ bid ∈ book_ids, (bid, mk_meta db bid) ∈ (get_metadata_batch db book_ids).1)
    ∧ (∀ bid,
        (db.title bid = none → (mk_meta db bid).title = "")
        ∧ (db.authors bid = none → (mk_meta db bid).authors = [])
        ∧ (db.tags bid = none → (mk_meta db bid).tags = [])
        ∧ (db.publisher bid = none → (mk_meta db bid).publisher = "")
        ∧ (db.pubdate bid = none → (mk_meta db bid).pubdate = "")
        ∧ (db.languages bid = none → (mk_meta db bid).languages = [])
        ∧ (db.timestamp bid = none → (mk_meta db bid).timestamp = 0))
    ∧ (book_ids = [] → get_metadata_batch db book_ids = ([], 0))
    ∧ (book_ids ≠ [] → (get_metadata_batch db book_ids).2 = 7) := by
  refine ⟨?_, ?_, ?_, ?_, ?_⟩
  · by_cases h : book_ids = []
    · subst h
      rfl
    · simp [get_metadata_batch, h, List.map_map, Function.comp_def]
  · intro bid hm
    by_cases h : book_ids = []
    · subst h
      cases hm
    · simp only [get_metadata_batch, if_neg h]
      exact List.mem_map_of_mem _ hm
  · intro bid
    refine ⟨?_, ?_, ?_, ?_, ?_, ?_, ?_⟩ <;>
      (intro h; simp [mk_meta, h])
  · intro h
    subst h
    rfl
  · intro h
    simp [get_metadata_batch, h]

/-- C10 witness: a two-id request against a database with absent fields:
both ids appear with defaults; the empty request issues zero calls. -/
theorem get_metadata_batch_spec_witness :
    (∀ bid ∈ [7, 9],
      (bid, mk_meta ⟨fun _ => none, fun _ => none, fun _ => none, fun _ => none,
          fun _ => none, fun _ => none, fun _ => none⟩ bid)
        ∈ (get_metadata_batch ⟨fun _ => none, fun _ => none, fun _ => none, fun _ => none,
          fun _ => none, fun _ => none, fun _ => none⟩ [7, 9]).1)
    ∧ (mk_meta ⟨fun _ => none, fun _ => none, fun _ => none, fun _ => none,
          fun _ => none, fun _ => none, fun _ => none⟩ 7).title = ""
    ∧ get_metadata_batch ⟨fun _ => none, fun _ => none, fun _ => none, fun _ => none,
          fun _ => none, fun _ => none, fun _ => none⟩ [] = ([], 0) :=
  ⟨(get_metadata_batch_spec _ [7, 9]).2.1,
   ((get_metadata_batch_spec ⟨fun _ => none, fun _ => none, fun _ => none, fun _ => none,
          fun _ => none, fun _ => none, fun _ => none⟩ [7, 9]).2.2.1 7).1 rfl,
   (get_metadata_batch_spec _ []).2.2.2.1 rfl⟩

end CalibreBatch
